import Mathlib

/-!
# Verification model of the book-review-api HTTP service

Shallow embedding of the request handlers of the `book-review-api`
repository (Express + PostgreSQL).  Handlers become pure Lean functions
over an explicit database state; the SQL statements each handler issues
are translated into list operations over that state, including the
schema-level constraints declared in `scripts/setupDatabase.js`
(NOT NULL, CHECK on ratings, UNIQUE constraints, foreign keys).

Modelling conventions:
* HTTP request bodies are duck-typed JSON, so a body field is one of
  `undefined` (absent), `null`, or a value; the `JsOpt` type mirrors this.
  Query parameters and path parameters are strings or absent.
* JavaScript string functions (`parseInt`, `toLowerCase`, `trim`,
  `.length`) are modelled on ASCII data; `parseInt`'s hexadecimal `0x`
  prefix form and non-ASCII case folding are outside this model.
* Timestamps are abstract instants (`Nat`); `CURRENT_TIMESTAMP` is the
  explicit `now` argument passed to each mutating handler.
* bcrypt hashing/comparison and the PostgreSQL full-text matcher
  (`to_tsvector @@ plainto_tsquery`) are external collaborators and are
  taken as opaque function parameters of the handlers that use them.
* Responses carry the HTTP status and either the error message string
  from the source or the success payload; response fields that no claim
  mentions (average ratings, pagination metadata objects) are not
  modelled.
-/

namespace BookReviewApi

/-! ## JavaScript / PostgreSQL numeric string primitives -/

/-- Digits-to-number accumulator used by both integer scanners. -/
def digitsToNat (ds : List Char) : Nat :=
  ds.foldl (fun n c => 10 * n + (c.toNat - '0'.toNat)) 0

/-- Split an optional leading sign character, returning `true` for `-`. -/
def splitSign (cs : List Char) : Bool × List Char :=
  match cs with
  | '-' :: rest => (true, rest)
  | '+' :: rest => (false, rest)
  | _ => (false, cs)

/-- JavaScript `parseInt(s)` (radix 10): skip leading whitespace, read an
optional sign and then the longest digit prefix; `none` models `NaN`
(no digits found).  The `0x` hexadecimal form is not modelled. -/
def jsParseInt (s : String) : Option Int :=
  let cs := s.data.dropWhile Char.isWhitespace
  let sg := splitSign cs
  let ds := sg.2.takeWhile Char.isDigit
  if ds.isEmpty then none
  else some (if sg.1 then -(digitsToNat ds : Int) else (digitsToNat ds : Int))

/-- `parseInt` applied to a possibly-absent query parameter:
`parseInt(undefined)` is `NaN`. -/
def jsParseIntOpt (s : Option String) : Option Int :=
  match s with
  | none => none
  | some str => jsParseInt str

/-- PostgreSQL's cast of a text parameter to `integer`, as triggered by
`WHERE id = $1` when the parameter is a raw string: optional surrounding
whitespace, an optional sign and digits, and nothing else; `none` models
the `invalid input syntax for type integer` error. -/
def pgCastInt (s : String) : Option Int :=
  let cs := s.data.dropWhile Char.isWhitespace
  let sg := splitSign cs
  let ds := sg.2.takeWhile Char.isDigit
  let rest := (sg.2.dropWhile Char.isDigit).dropWhile Char.isWhitespace
  if ds.isEmpty then none
  else if !rest.isEmpty then none
  else some (if sg.1 then -(digitsToNat ds : Int) else (digitsToNat ds : Int))

/-- JavaScript's `toLowerCase()` and SQL's `LOWER()` on ASCII data:
lower-case every character. -/
def jsToLower (s : String) : String := ⟨s.data.map Char.toLower⟩

/-- Split a character list at every occurrence of a separator (used to
model the email regex; mirrors `String.split` on a single character). -/
def splitAtChar (sep : Char) : List Char → List (List Char)
  | [] => [[]]
  | c :: rest =>
    match splitAtChar sep rest with
    | [] => [[]]
    | g :: gs => if c = sep then [] :: g :: gs else (c :: g) :: gs

/-- JavaScript truthiness of a value that is either a missing field or a
string: `undefined` and `""` are falsy. -/
def strTruthy (s : Option String) : Bool :=
  match s with
  | none => false
  | some str => !(str = "")

/-- A JSON body field: absent, `null`, or a value. -/
inductive JsOpt (α : Type) where
  | undef : JsOpt α
  | null : JsOpt α
  | val (a : α) : JsOpt α
deriving Repr, DecidableEq

/-- Truthiness of a numeric body field (`undefined`, `null` and `0` are
falsy). -/
def numTruthy (v : JsOpt Int) : Bool :=
  match v with
  | .val n => !(n = 0)
  | _ => false

/-- Truthiness of a string body field (`undefined`, `null` and `""` are
falsy). -/
def textTruthy (v : JsOpt String) : Bool :=
  match v with
  | .val s => !(s = "")
  | _ => false

/-! ## Data model (tables created by `scripts/setupDatabase.js`) -/

/-- Row of the `users` table. -/
structure User where
  id : Nat
  username : String
  email : String
  password_hash : String
  created_at : Nat
deriving Repr, DecidableEq

/-- Row of the `books` table. -/
structure Book where
  id : Nat
  title : String
  author : String
  genre : Option String
  description : Option String
  published_year : Option Int
  isbn : Option String
  created_by : Option Nat
  created_at : Nat
  updated_at : Nat
deriving Repr, DecidableEq

/-- Row of the `reviews` table. -/
structure Review where
  id : Nat
  book_id : Nat
  user_id : Nat
  rating : Int
  review_text : Option String
  created_at : Nat
  updated_at : Nat
deriving Repr, DecidableEq

/-- The persistent state: the three tables plus the `SERIAL` sequences. -/
structure DB where
  users : List User
  books : List Book
  reviews : List Review
  nextUserId : Nat
  nextBookId : Nat
  nextReviewId : Nat
deriving Repr, DecidableEq

/-- The freshly-initialised empty database. -/
def initDB : DB := ⟨[], [], [], 1, 1, 1⟩

/-- An HTTP response: an error with status code and `error` body message,
or a success with status code and payload. -/
inductive ApiResponse (α : Type) where
  | err (status : Nat) (message : String) : ApiResponse α
  | ok (status : Nat) (payload : α) : ApiResponse α
deriving Repr, DecidableEq

/-- A signed JWT issued by `generateToken`: it encodes the user id and
the issue instant (the expiry offset is configuration, not state). -/
structure Token where
  userId : Nat
  issuedAt : Nat
deriving Repr, DecidableEq

/-- `generateToken(userId)` from the auth router: signs a fresh token at
the current instant. -/
def generateToken (userId : Nat) (now : Nat) : Token := ⟨userId, now⟩

/-! ## Pagination helper (`getPagination` in books / search routers) -/

/-- The pagination window produced by `getPagination`. -/
structure PageParams where
  limit : Int
  offset : Int
  page : Int
deriving Repr, DecidableEq

/-- JavaScript `x || d` over a possibly-NaN number: `NaN` and `0` fall
back to the default. -/
def orFalsy (v : Option Int) (d : Int) : Int :=
  match v with
  | none => d
  | some n => if n = 0 then d else n

/-- `getPagination(page, limit)` from `routes/books.js` and
`routes/search.js`: `parseInt(page) || 1`, `parseInt(limit) || 10`,
`offset = (pageNum - 1) * limitNum`, limit capped by
`Math.min(limitNum, 50)` and offset floored by `Math.max(offset, 0)`. -/
def getPagination (page limit : Option String) : PageParams :=
  let pageNum := orFalsy (jsParseIntOpt page) 1
  let limitNum := orFalsy (jsParseIntOpt limit) 10
  let offset := (pageNum - 1) * limitNum
  ⟨min limitNum 50, max offset 0, pageNum⟩

/-! ## Ownership middleware (`checkReviewOwnership` in middleware/auth.js) -/

/-- Outcome of an Express middleware: pass control on (`next()`) or
terminate the request with a response. -/
inductive MwResult where
  | next : MwResult
  | respond (status : Nat) (message : String) : MwResult
deriving Repr, DecidableEq

/-- `checkReviewOwnership`: runs `SELECT user_id FROM reviews WHERE id = $1`
with the raw path parameter (a failed integer cast of the parameter is a
query error caught as a 500), answers 404 when no row matches, 403 when
the first matching row's `user_id` differs from the acting user, and
passes control on otherwise. -/
def checkReviewOwnership (reviews : List Review) (rawId : String) (userId : Nat) :
    MwResult :=
  match pgCastInt rawId with
  | none => .respond 500 "Authorization error"
  | some rid =>
    match reviews.find? (fun r => (r.id : Int) = rid) with
    | none => .respond 404 "Review not found"
    | some row =>
      if row.user_id ≠ userId then .respond 403 "You can only modify your own reviews"
      else .next

/-! ## Auth router (`POST /signup`, `POST /login`) -/

/-- A character admitted by the chunks of the signup email regex
`[^\s@]+`: anything but whitespace and `@`. -/
def emailAtomChar (c : Char) : Bool := !c.isWhitespace && !(c = '@')

/-- `validateEmail`: the test of `/^[^\s@]+@[^\s@]+\.[^\s@]+$/`.  The
string must consist of exactly one `@` separating two nonempty chunks of
non-whitespace non-`@` characters, and the chunk after the `@` must
contain a dot that is neither its first nor its last character. -/
def validateEmail (s : String) : Bool :=
  match splitAtChar '@' s.data with
  | [localPart, domain] =>
    !localPart.isEmpty && localPart.all emailAtomChar &&
    !domain.isEmpty && domain.all emailAtomChar &&
    ((domain.drop 1).dropLast).contains '.'
  | _ => false

/-- `validatePassword`: truthy and at least 6 characters. -/
def validatePassword (password : String) : Bool :=
  !(password = "") && decide (6 ≤ password.length)

/-- Success payload of `POST /signup`: the projected user row plus the
fresh token. -/
structure SignupPayload where
  id : Nat
  username : String
  email : String
  created_at : Nat
  token : Token
deriving Repr, DecidableEq

/-- The `POST /signup` handler.  `hash` stands for `bcrypt.hash` with its
fixed work factor.  After field validation it pre-checks
`SELECT id FROM users WHERE email = $1 OR username = $2` with the
lower-cased email and lower-cased username, answering 409 on a hit;
otherwise it inserts the user (username stored as given, email stored
lower-cased).  An insert that violates the `UNIQUE` constraints on
`users.username` / `users.email` raises a database error that the
handler's catch-all converts to a 500. -/
def signup (hash : String → String) (db : DB)
    (username email password : Option String) (now : Nat) :
    DB × ApiResponse SignupPayload :=
  if !(strTruthy username && strTruthy email && strTruthy password) then
    (db, .err 400 "Username, email, and password are required")
  else
    let un := username.getD ""
    let em := email.getD ""
    let pw := password.getD ""
    if !validateEmail em then
      (db, .err 400 "Please provide a valid email address")
    else if !validatePassword pw then
      (db, .err 400 "Password must be at least 6 characters long")
    else if un.length < 3 ∨ 50 < un.length then
      (db, .err 400 "Username must be between 3 and 50 characters")
    else if (db.users.find? (fun u =>
        u.email = jsToLower em ∨ u.username = jsToLower un)).isSome then
      (db, .err 409 "User with this email or username already exists")
    else if db.users.any (fun u => u.username = un ∨ u.email = jsToLower em) then
      (db, .err 500 "Internal server error during registration")
    else
      let newUser : User := ⟨db.nextUserId, un, jsToLower em, hash pw, now⟩
      ({ db with users := db.users ++ [newUser], nextUserId := db.nextUserId + 1 },
       .ok 201 ⟨newUser.id, newUser.username, newUser.email, newUser.created_at,
                generateToken newUser.id now⟩)

/-- Success payload of `POST /login`: the projected user row plus the
fresh token. -/
structure LoginPayload where
  id : Nat
  username : String
  email : String
  token : Token
deriving Repr, DecidableEq

/-- The `POST /login` handler.  `compare` stands for `bcrypt.compare`.
Looks the user up by lower-cased email; a missing user and a failed
password comparison produce the same 401 response; on success a fresh
token is issued. -/
def login (compare : String → String → Bool) (db : DB)
    (email password : Option String) (now : Nat) : ApiResponse LoginPayload :=
  if !(strTruthy email && strTruthy password) then
    .err 400 "Email and password are required"
  else
    let em := email.getD ""
    let pw := password.getD ""
    match db.users.find? (fun u => u.email = jsToLower em) with
    | none => .err 401 "Invalid email or password"
    | some user =>
      if !compare pw user.password_hash then .err 401 "Invalid email or password"
      else .ok 200 ⟨user.id, user.username, user.email, generateToken user.id now⟩

/-! ## Books router (`POST /books`, `GET /books/:id`) -/

/-- The `POST /books` handler (after `authenticateToken`), acting for
user `uid`.  `currentYear` stands for `new Date().getFullYear()`.
Requires truthy title and author of at most 255 characters; a truthy
`published_year` must lie in `[0, currentYear]`; answers 409 when a book
with the same lower-cased title and author exists; otherwise inserts the
book with `created_by = uid` and answers 201 with the new row. -/
def addBook (db : DB) (uid : Nat) (title author genre description : Option String)
    (published_year : JsOpt Int) (isbn : Option String)
    (currentYear : Int) (now : Nat) : DB × ApiResponse Book :=
  if !(strTruthy title && strTruthy author) then
    (db, .err 400 "Title and author are required")
  else
    let t := title.getD ""
    let a := author.getD ""
    if 255 < t.length ∨ 255 < a.length then
      (db, .err 400 "Title and author must be less than 255 characters")
    else if numTruthy published_year &&
        (match published_year with
         | .val y => decide (y < 0) || decide (currentYear < y)
         | _ => false) then
      (db, .err 400 "Please provide a valid publication year")
    else if db.books.any (fun b =>
        jsToLower b.title = jsToLower t ∧ jsToLower b.author = jsToLower a) then
      (db, .err 409 "A book with this title and author already exists")
    else
      let storedYear : Option Int := match published_year with
        | .val y => some y
        | _ => none
      let newBook : Book := ⟨db.nextBookId, t, a, genre, description, storedYear,
                             isbn, some uid, now, now⟩
      ({ db with books := db.books ++ [newBook], nextBookId := db.nextBookId + 1 },
       .ok 201 newBook)

/-- A review row joined with the reviewing user's username, as produced
by `JOIN users u ON r.user_id = u.id`. -/
structure ReviewWithUser where
  review : Review
  username : String
deriving Repr, DecidableEq

/-- Success payload of `GET /books/:id`: the book row and the requested
page of its reviews.  (The response's average-rating figure and
pagination metadata object are not modelled.) -/
structure BookDetailPayload where
  book : Book
  reviews : List ReviewWithUser
deriving Repr, DecidableEq

/-- Comparison used by `ORDER BY created_at DESC` on joined review rows:
newer (larger) instants come first. -/
def reviewRecencyLe (a b : ReviewWithUser) : Bool :=
  decide (b.review.created_at ≤ a.review.created_at)

/-- The page of reviews returned for a book: the inner join of the
book's reviews with their users, newest first, then `OFFSET`/`LIMIT`. -/
def bookReviewsPage (db : DB) (bid : Int) (pp : PageParams) : List ReviewWithUser :=
  let joined := (db.reviews.filter (fun r => (r.book_id : Int) = bid)).filterMap
    (fun r => (db.users.find? (fun u => u.id = r.user_id)).map
      (fun u => ⟨r, u.username⟩))
  (((joined.mergeSort reviewRecencyLe).drop pp.offset.toNat).take pp.limit.toNat)

/-- The `GET /books/:id` handler.  400 when `parseInt` of the id
parameter is `NaN`; 404 when no book has the parsed id; a negative
normalized limit makes the reviews query fail (`LIMIT must not be
negative`), which the catch-all converts to a 500; otherwise the book
and one independently-paginated page of its reviews, newest first, each
with its reviewer's username. -/
def getBook (db : DB) (rawId : String) (page limit : Option String) :
    ApiResponse BookDetailPayload :=
  let pp := getPagination page limit
  match jsParseInt rawId with
  | none => .err 400 "Invalid book ID"
  | some bid =>
    match db.books.find? (fun b => (b.id : Int) = bid) with
    | none => .err 404 "Book not found"
    | some b =>
      if pp.limit < 0 then .err 500 "Internal server error while fetching book details"
      else .ok 200 ⟨b, bookReviewsPage db bid pp⟩

/-- The creation-path rating validation `!rating || rating < 1 || rating > 5`
(a falsy rating — absent, null or 0 — is rejected here). -/
def ratingRequiredGuard (rating : JsOpt Int) : Bool :=
  !numTruthy rating ||
    (match rating with
     | .val n => decide (n < 1) || decide (5 < n)
     | _ => false)

/-- The update-path rating validation `rating && (rating < 1 || rating > 5)`
(a falsy rating — absent, null or 0 — skips the range check). -/
def ratingRangeGuard (rating : JsOpt Int) : Bool :=
  numTruthy rating &&
    (match rating with
     | .val n => decide (n < 1) || decide (5 < n)
     | _ => false)

/-- The text validation `review_text && review_text.length > 2000`. -/
def textLengthGuard (text : JsOpt String) : Bool :=
  textTruthy text &&
    (match text with
     | .val s => decide (2000 < s.length)
     | _ => false)

/-! ## Reviews router (`POST /books/:id/reviews`, `PUT /reviews/:id`,
`DELETE /reviews/:id`) -/

/-- Success payload of `POST /books/:id/reviews`: the inserted review
annotated with the submitter's username. -/
structure NewReviewPayload where
  review : Review
  username : String
deriving Repr, DecidableEq

/-- The `POST /books/:id/reviews` handler (after `authenticateToken`),
acting for user `uid`.  400 on an unparsable book id, a falsy or
out-of-range rating, or over-long text; 404 when the book is absent; 409
when the user already has a review on the book; otherwise inserts the
review and answers 201.  The insert's foreign key on `users` and the
follow-up username lookup both need the acting user's row; its absence
surfaces as a 500. -/
def addReview (db : DB) (rawBookId : String) (uid : Nat)
    (rating : JsOpt Int) (review_text : JsOpt String) (now : Nat) :
    DB × ApiResponse NewReviewPayload :=
  match jsParseInt rawBookId with
  | none => (db, .err 400 "Invalid book ID")
  | some bid =>
    if ratingRequiredGuard rating then
      (db, .err 400 "Rating must be between 1 and 5")
    else if textLengthGuard review_text then
      (db, .err 400 "Review text must be less than 2000 characters")
    else
      match db.books.find? (fun b => (b.id : Int) = bid) with
      | none => (db, .err 404 "Book not found")
      | some _ =>
        if (db.reviews.find? (fun r =>
            (r.book_id : Int) = bid ∧ r.user_id = uid)).isSome then
          (db, .err 409 "You have already reviewed this book. Use PUT to update your review.")
        else
          match db.users.find? (fun u => u.id = uid) with
          | none => (db, .err 500 "Internal server error while submitting review")
          | some u =>
            let ratingVal : Int := match rating with
              | .val n => n
              | _ => 0
            let textVal : Option String := match review_text with
              | .val s => some s
              | _ => none
            let newReview : Review :=
              ⟨db.nextReviewId, bid.toNat, uid, ratingVal, textVal, now, now⟩
            ({ db with reviews := db.reviews ++ [newReview],
                       nextReviewId := db.nextReviewId + 1 },
             .ok 201 ⟨newReview, u.username⟩)

/-- Body of a `PUT /reviews/:id` request. -/
structure UpdateBody where
  rating : JsOpt Int
  review_text : JsOpt String
deriving Repr, DecidableEq

/-- One row's new version under the dynamically-built
`UPDATE reviews SET ...` statement; `none` models a row that violates
the table's `rating` constraints (`NOT NULL` and
`CHECK (rating >= 1 AND rating <= 5)`), which aborts the statement. -/
def attemptUpdateRow (r : Review) (body : UpdateBody) (now : Nat) : Option Review :=
  let newRating : Option Int := match body.rating with
    | .undef => some r.rating
    | .null => none
    | .val n => some n
  match newRating with
  | none => none
  | some nr =>
    if nr < 1 ∨ 5 < nr then none
    else some { r with
      rating := nr,
      review_text := match body.review_text with
        | .undef => r.review_text
        | .null => none
        | .val s => some s,
      updated_at := now }

/-- Success payload of `PUT /reviews/:id`: the `RETURNING *` row (absent
when the update matched no row) plus the acting user's username. -/
structure UpdatedReviewPayload where
  review : Option Review
  username : String
deriving Repr, DecidableEq

/-- The `PUT /reviews/:id` handler body (it runs only after
`authenticateToken` and `checkReviewOwnership`).  400 on an unparsable
id, a truthy out-of-range rating, over-long text, or when neither field
is supplied; otherwise it updates the supplied fields and
`updated_at = CURRENT_TIMESTAMP` on every row with the parsed id.  A row
update violating the rating constraints aborts the statement with a
database error (500, nothing changed); a missing acting-user row makes
the follow-up username lookup blow up (500) after the update is already
persisted. -/
def updateReviewHandler (db : DB) (rawId : String) (uid : Nat)
    (body : UpdateBody) (now : Nat) : DB × ApiResponse UpdatedReviewPayload :=
  match jsParseInt rawId with
  | none => (db, .err 400 "Invalid review ID")
  | some rid =>
    if ratingRangeGuard body.rating then
      (db, .err 400 "Rating must be between 1 and 5")
    else if textLengthGuard body.review_text then
      (db, .err 400 "Review text must be less than 2000 characters")
    else if body.rating = .undef ∧ body.review_text = .undef then
      (db, .err 400 "At least one field (rating or review_text) must be provided")
    else if !(db.reviews.filter (fun r => (r.id : Int) = rid)).all
        (fun r => (attemptUpdateRow r body now).isSome) then
      (db, .err 500 "Internal server error while updating review")
    else
      let reviews2 := db.reviews.map (fun r =>
        if (r.id : Int) = rid then (attemptUpdateRow r body now).getD r else r)
      let db2 := { db with reviews := reviews2 }
      match db.users.find? (fun u => u.id = uid) with
      | none => (db2, .err 500 "Internal server error while updating review")
      | some u =>
        (db2, .ok 200 ⟨(reviews2.filter (fun r => (r.id : Int) = rid)).head?,
                       u.username⟩)

/-- The full `PUT /reviews/:id` pipeline: `checkReviewOwnership` then the
handler body. -/
def updateReviewPipeline (db : DB) (rawId : String) (uid : Nat)
    (body : UpdateBody) (now : Nat) : DB × ApiResponse UpdatedReviewPayload :=
  match checkReviewOwnership db.reviews rawId uid with
  | .respond s m => (db, .err s m)
  | .next => updateReviewHandler db rawId uid body now

/-- Success payload of `DELETE /reviews/:id`: the `RETURNING *` row of
the delete (absent when no row matched). -/
structure DeletedReviewPayload where
  deleted_review : Option Review
deriving Repr, DecidableEq

/-- The `DELETE /reviews/:id` handler body (runs after the middleware):
400 on an unparsable id, otherwise deletes every row with the parsed id
and answers 200 with the first deleted row. -/
def deleteReviewHandler (db : DB) (rawId : String) :
    DB × ApiResponse DeletedReviewPayload :=
  match jsParseInt rawId with
  | none => (db, .err 400 "Invalid review ID")
  | some rid =>
    let deleted := (db.reviews.filter (fun r => (r.id : Int) = rid)).head?
    ({ db with reviews := db.reviews.filter (fun r => !((r.id : Int) = rid : Bool)) },
     .ok 200 ⟨deleted⟩)

/-- The full `DELETE /reviews/:id` pipeline: `checkReviewOwnership` then
the handler body. -/
def deleteReviewPipeline (db : DB) (rawId : String) (uid : Nat) :
    DB × ApiResponse DeletedReviewPayload :=
  match checkReviewOwnership db.reviews rawId uid with
  | .respond s m => (db, .err s m)
  | .next => deleteReviewHandler db rawId

/-! ## Search router (`GET /search`) -/

/-- Whether `needle` occurs as a contiguous subsequence of the haystack
character list. -/
def containsSeq (needle : List Char) : List Char → Bool
  | [] => needle.isEmpty
  | c :: rest => (needle.isPrefixOf (c :: rest) : Bool) || containsSeq needle rest

/-- `LOWER(x) LIKE LOWER('%term%')`: case-insensitive substring
containment (search terms containing SQL wildcard characters are outside
this model). -/
def likeContains (hay pat : String) : Bool :=
  containsSeq (jsToLower pat).data (jsToLower hay).data

/-- A search result row: a book together with its computed
`relevance_score` column. -/
structure ScoredBook where
  book : Book
  relevance_score : Nat
deriving Repr, DecidableEq

/-- The `CASE` expression computing `relevance_score` in the search
query: 4 for a case-insensitive exact match of title or author, 3 for a
substring match, 1 otherwise. -/
def relevanceCase (term : String) (b : Book) : Nat :=
  if jsToLower b.title = jsToLower term then 4
  else if jsToLower b.author = jsToLower term then 4
  else if likeContains b.title term then 3
  else if likeContains b.author term then 3
  else 1

/-- The search query's `WHERE` clause: substring match on title or
author, or a full-text match (`ft`) of the combined title/author
document against the term. -/
def matchesSearch (ft : String → String → Bool) (term : String) (b : Book) : Bool :=
  likeContains b.title term || likeContains b.author term ||
    ft (b.title ++ " " ++ b.author) term

/-- `ORDER BY relevance_score DESC, b.created_at DESC`. -/
def searchOrderLe (a b : ScoredBook) : Bool :=
  decide (b.relevance_score < a.relevance_score ∨
    (a.relevance_score = b.relevance_score ∧ b.book.created_at ≤ a.book.created_at))

/-- The result set of the search query (`routes/search.js` lines 41-67):
matching books with their relevance scores, ordered by descending score
then descending creation instant, then `OFFSET`/`LIMIT`. -/
def searchResultRows (ft : String → String → Bool) (db : DB) (term : String)
    (limitN offsetN : Int) : List ScoredBook :=
  let scored := (db.books.filter (matchesSearch ft term)).map
    (fun b => ScoredBook.mk b (relevanceCase term b))
  ((scored.mergeSort searchOrderLe).drop offsetN.toNat).take limitN.toNat

/-! ## Reachable states

The mutating operations exposed by the API, as a step relation over the
database state.  Login and the read-only routes do not change state. -/

/-- One state transition: some mutating request was processed (with
arbitrary caller-controlled inputs). -/
inductive Step : DB → DB → Prop where
  | signup (db : DB) (hash : String → String) (username email password : Option String)
      (now : Nat) : Step db (signup hash db username email password now).1
  | addBook (db : DB) (uid : Nat) (title author genre description : Option String)
      (published_year : JsOpt Int) (isbn : Option String) (currentYear : Int)
      (now : Nat) :
      Step db (addBook db uid title author genre description published_year isbn
        currentYear now).1
  | addReview (db : DB) (rawBookId : String) (uid : Nat) (rating : JsOpt Int)
      (review_text : JsOpt String) (now : Nat) :
      Step db (addReview db rawBookId uid rating review_text now).1
  | updateReview (db : DB) (rawId : String) (uid : Nat) (body : UpdateBody)
      (now : Nat) : Step db (updateReviewPipeline db rawId uid body now).1
  | deleteReview (db : DB) (rawId : String) (uid : Nat) :
      Step db (deleteReviewPipeline db rawId uid).1

/-- States reachable from the freshly-initialised database through the
API's mutating operations. -/
inductive Reachable : DB → Prop where
  | init : Reachable initDB
  | step {db db' : DB} : Reachable db → Step db db' → Reachable db'

/-- The invariant claimed for reviews: no two distinct stored reviews
share the same (book, user) pair. -/
def PairUnique (reviews : List Review) : Prop :=
  reviews.Pairwise (fun r1 r2 => ¬(r1.book_id = r2.book_id ∧ r1.user_id = r2.user_id))

/-- The value actually inserted into `books.published_year`: the body
field's number, or SQL `NULL` for an absent or `null` field. -/
def storedYearOf (py : JsOpt Int) : Option Int :=
  match py with
  | .val y => some y
  | _ => none

/-! ## Derived definitions used in statements -/

/-- A "well-formed positive integer" path parameter in the sense of the
specification: a nonempty digit string denoting a value ≥ 1. -/
def wellFormedPosInt (s : String) : Bool :=
  !s.isEmpty && s.data.all Char.isDigit && !(digitsToNat s.data = 0)

/-- The new version of a review row under a `PUT /reviews/:id` body whose
supplied fields are valid: supplied fields replace the old ones,
`updated_at` is refreshed, everything else is kept. -/
def appliedUpdate (r : Review) (body : UpdateBody) (now : Nat) : Review :=
  { r with
    rating := match body.rating with
      | .val n => n
      | _ => r.rating,
    review_text := match body.review_text with
      | .undef => r.review_text
      | .null => none
      | .val s => some s,
    updated_at := now }

/-! ## Concrete fixtures used by witnesses and counterexamples -/

/-- A stand-in for `bcrypt.hash` with its fixed salt rounds. -/
def fixedHash (pw : String) : String := String.append "bcrypt12$" pw

/-- A stand-in for `bcrypt.compare`, consistent with `fixedHash`. -/
def fixedCompare (pw stored : String) : Bool := stored = fixedHash pw

/-- A stand-in full-text matcher that matches nothing. -/
def ftNone (_document _term : String) : Bool := false

/-- State after `signup("alice", "alice@x.com", "secret1")`. -/
def dbA : DB := (signup fixedHash initDB (some "alice") (some "alice@x.com")
  (some "secret1") 5).1

/-- State after alice then adds the book "Dune" by "Herbert". -/
def dbB : DB := (addBook dbA 1 (some "Dune") (some "Herbert") none none .undef none
  2026 7).1

/-- State after alice then reviews "Dune" with rating 5. -/
def dbC : DB := (addReview dbB "1" 1 (.val 5) (.val "great") 9).1

/-- The book row created in `dbB`. -/
def duneBook : Book := ⟨1, "Dune", "Herbert", none, none, none, none, some 1, 7, 7⟩

/-- The review row created in `dbC`. -/
def duneReview : Review := ⟨1, 1, 1, 5, some "great", 9, 9⟩

/-- A database holding a user whose stored username contains an
uppercase letter. -/
def dbMixedCase : DB := ⟨[⟨1, "Bob", "bob@x.com", "h0", 0⟩], [], [], 2, 1, 1⟩

/-- A minimal database holding only the "Dune" book, for exercising the
search query. -/
def dbSearch : DB := ⟨[], [duneBook], [], 1, 2, 1⟩

/-! ## Helper lemmas -/

/-- A raw id accepted by PostgreSQL's integer cast is also parsed (to
the same value) by JavaScript's `parseInt`. -/
theorem jsParseInt_of_pgCastInt {s : String} {n : Int} (h : pgCastInt s = some n) :
    jsParseInt s = some n := by
  simp only [pgCastInt] at h
  simp only [jsParseInt]
  split at h
  · exact absurd h (by simp)
  · rename_i hds
    split at h
    · exact absurd h (by simp)
    · rw [if_neg hds]
      exact h

/-- `checkReviewOwnership` never answers with the handlers' own
"Invalid review ID" validation response. -/
theorem checkReviewOwnership_ne_invalid (l : List Review) (raw : String) (u : Nat) :
    checkReviewOwnership l raw u ≠ .respond 400 "Invalid review ID" := by
  unfold checkReviewOwnership
  split
  · simp
  · split
    · simp
    · split <;> simp

/-- Inversion of a passed ownership check: the raw id casts to an
integer, some review carries that id, and the first such review belongs
to the acting user. -/
theorem checkReviewOwnership_next_elim {l : List Review} {raw : String} {u : Nat}
    (h : checkReviewOwnership l raw u = .next) :
    ∃ rid r, pgCastInt raw = some rid ∧
      l.find? (fun x => (x.id : Int) = rid) = some r ∧ r.user_id = u := by
  unfold checkReviewOwnership at h
  split at h
  · exact absurd h (by simp)
  · rename_i rid hp
    split at h
    · exact absurd h (by simp)
    · rename_i row hf
      split at h
      · exact absurd h (by simp)
      · rename_i hrow
        exact ⟨rid, row, hp, hf, by omega⟩

/-! ## Claim C2 (pagination) -/

/-- Claim C2 counterexample: requesting `page=-2` does not yield page 1;
`parseInt("-2") || 1` keeps the truthy value `-2`, so the returned page
is `-2` (the offset does clamp to 0). -/
theorem claim_pagination_counterexample :
    (getPagination (some "-2") none).page = -2 ∧
    (getPagination (some "-2") none).page ≠ 1 ∧
    (getPagination (some "-2") none).offset = 0 := by
  decide

/-- Claim C2 (amended): for every pair of query inputs the helper
returns offset ≥ 0 and limit ≤ 50; a missing, non-numeric or zero page
defaults to page 1 with offset 0 and a missing, non-numeric or zero
limit defaults to 10; a nonzero parsed limit is clamped to
`min limit 50` (so limit=1000 yields 50); a nonzero parsed page is
returned as-is (so a negative page is NOT normalized to 1, though its
offset still clamps to 0 whenever the effective limit is nonnegative);
when the effective page is ≥ 1 and the effective limit is ≥ 0 the offset
is exactly (page−1)×limit. -/
theorem claim_pagination_amended (page limit : Option String) :
    0 ≤ (getPagination page limit).offset ∧
    (getPagination page limit).limit ≤ 50 ∧
    ((jsParseIntOpt page = none ∨ jsParseIntOpt page = some 0) →
      (getPagination page limit).page = 1 ∧ (getPagination page limit).offset = 0) ∧
    (∀ n : Int, jsParseIntOpt page = some n → n ≠ 0 →
      (getPagination page limit).page = n) ∧
    ((jsParseIntOpt limit = none ∨ jsParseIntOpt limit = some 0) →
      (getPagination page limit).limit = 10) ∧
    (∀ m : Int, jsParseIntOpt limit = some m → m ≠ 0 →
      (getPagination page limit).limit = min m 50) ∧
    (∀ P L : Int, orFalsy (jsParseIntOpt page) 1 = P →
      orFalsy (jsParseIntOpt limit) 10 = L → 1 ≤ P → 0 ≤ L →
      (getPagination page limit).offset = (P - 1) * L) ∧
    (∀ n : Int, jsParseIntOpt page = some n → n < 0 →
      0 ≤ orFalsy (jsParseIntOpt limit) 10 →
      (getPagination page limit).offset = 0) := by
  have hoff : (getPagination page limit).offset
      = max ((orFalsy (jsParseIntOpt page) 1 - 1) * orFalsy (jsParseIntOpt limit) 10) 0 := rfl
  have hpage : (getPagination page limit).page = orFalsy (jsParseIntOpt page) 1 := rfl
  have hlim : (getPagination page limit).limit
      = min (orFalsy (jsParseIntOpt limit) 10) 50 := rfl
  refine ⟨?_, ?_, ?_, ?_, ?_, ?_, ?_, ?_⟩
  · rw [hoff]; exact le_max_right _ _
  · rw [hlim]; exact min_le_right _ _
  · rintro (h | h) <;> rw [hpage, hoff] <;> simp [orFalsy, h]
  · intro n h hn; rw [hpage]; simp [orFalsy, h, hn]
  · rintro (h | h) <;> rw [hlim] <;> simp [orFalsy, h]
  · intro m h hm; rw [hlim]; simp [orFalsy, h, hm]
  · intro P L hP hL h1 h0
    rw [hoff, hP, hL]
    exact max_eq_left (mul_nonneg (by omega) h0)
  · intro n h hn hL
    rw [hoff]
    have hn' : orFalsy (jsParseIntOpt page) 1 = n := by simp [orFalsy, h]; omega
    rw [hn']
    exact max_eq_right (mul_nonpos_iff.mpr (Or.inr ⟨by omega, hL⟩))

/-- Witness for the amended C2 theorem: `page=0` yields page 1 and
`limit=1000` is clamped to 50. -/
theorem claim_pagination_amended_witness :
    (getPagination (some "0") (some "1000")).page = 1 ∧
    (getPagination (some "0") (some "1000")).limit = 50 := by
  have h := claim_pagination_amended (some "0") (some "1000")
  refine ⟨(h.2.2.1 (Or.inr (by decide))).1, ?_⟩
  have h6 := h.2.2.2.2.2.1 1000 (by decide) (by decide)
  rw [h6]; decide

/-! ## Claim C10 (the isNaN branch after the ownership middleware) -/

/-- Claim C10: the "Invalid review ID" validation branch of the
update/delete handlers is unreachable: the full pipelines never produce
that response, because `checkReviewOwnership` terminates every request
whose raw id is not the integer id of an existing review, and a raw id
that survives its database lookup always parses. -/
theorem claim_invalid_id_unreachable (db : DB) (rawId : String) (uid : Nat)
    (body : UpdateBody) (now : Nat) :
    (updateReviewPipeline db rawId uid body now).2 ≠ .err 400 "Invalid review ID" ∧
    (deleteReviewPipeline db rawId uid).2 ≠ .err 400 "Invalid review ID" := by
  constructor
  · unfold updateReviewPipeline
    cases hc : checkReviewOwnership db.reviews rawId uid with
    | respond s m =>
      intro hcontra
      simp only [ApiResponse.err.injEq] at hcontra
      exact checkReviewOwnership_ne_invalid db.reviews rawId uid
        (by rw [hc, hcontra.1, hcontra.2])
    | next =>
      obtain ⟨rid, r, hcast, -, -⟩ := checkReviewOwnership_next_elim hc
      unfold updateReviewHandler
      rw [jsParseInt_of_pgCastInt hcast]
      split_ifs <;> simp <;> cases db.users.find? (fun u => u.id = uid) <;>
        simp <;> split <;> simp
  · unfold deleteReviewPipeline
    cases hc : checkReviewOwnership db.reviews rawId uid with
    | respond s m =>
      intro hcontra
      simp only [ApiResponse.err.injEq] at hcontra
      exact checkReviewOwnership_ne_invalid db.reviews rawId uid
        (by rw [hc, hcontra.1, hcontra.2])
    | next =>
      obtain ⟨rid, r, hcast, -, -⟩ := checkReviewOwnership_next_elim hc
      unfold deleteReviewHandler
      rw [jsParseInt_of_pgCastInt hcast]
      simp

/-! ## Claim C3 (login reveals nothing about email registration) -/

/-- Claim C3: with both fields present, an unknown (case-folded) email
and a known email with a failing password comparison produce literally
the same 401 response, and a successful comparison always yields a 200
with a token freshly issued for the matched user. -/
theorem claim_login_no_leak (compare : String → String → Bool) (db : DB)
    (e pw : String) (now : Nat) (he : e ≠ "") (hp : pw ≠ "") :
    (db.users.find? (fun u => u.email = jsToLower e) = none →
      login compare db (some e) (some pw) now = .err 401 "Invalid email or password") ∧
    (∀ u, db.users.find? (fun u => u.email = jsToLower e) = some u →
      compare pw u.password_hash = false →
      login compare db (some e) (some pw) now = .err 401 "Invalid email or password") ∧
    (∀ u, db.users.find? (fun u => u.email = jsToLower e) = some u →
      compare pw u.password_hash = true →
      login compare db (some e) (some pw) now
        = .ok 200 ⟨u.id, u.username, u.email, generateToken u.id now⟩) := by
  refine ⟨?_, ?_, ?_⟩
  · intro hf
    simp [login, strTruthy, he, hp, hf]
  · intro u hf hcmp
    simp [login, strTruthy, he, hp, hf, hcmp]
  · intro u hf hcmp
    simp [login, strTruthy, he, hp, hf, hcmp]

/-- Witness for C3: alice logs in successfully with her password. -/
theorem claim_login_no_leak_witness :
    login fixedCompare dbA (some "alice@x.com") (some "secret1") 12
      = .ok 200 ⟨1, "alice", "alice@x.com", generateToken 1 12⟩ := by
  exact (claim_login_no_leak fixedCompare dbA "alice@x.com" "secret1" 12
    (by decide) (by decide)).2.2
    ⟨1, "alice", "alice@x.com", fixedHash "secret1", 5⟩ (by decide) (by decide)

/-! ## Claim C6 (case-insensitive book duplicate detection) -/

/-- Claim C6: for a valid title/author (and a publication year passing
validation), adding a book answers 409 exactly when some stored book
matches on lower-cased title and author; otherwise the book is persisted
with the acting user as creator and returned with 201. -/
theorem claim_addBook_conflict_iff (db : DB) (uid : Nat) (t a : String)
    (genre descr : Option String) (py : JsOpt Int) (isbn : Option String)
    (currentYear : Int) (now : Nat)
    (ht : t ≠ "") (ha : a ≠ "") (hlt : t.length ≤ 255) (hla : a.length ≤ 255)
    (hy : ∀ y, py = .val y → y ≠ 0 → 0 ≤ y ∧ y ≤ currentYear) :
    ((∃ b ∈ db.books, jsToLower b.title = jsToLower t ∧ jsToLower b.author = jsToLower a) →
      addBook db uid (some t) (some a) genre descr py isbn currentYear now
        = (db, .err 409 "A book with this title and author already exists")) ∧
    (¬(∃ b ∈ db.books, jsToLower b.title = jsToLower t ∧ jsToLower b.author = jsToLower a) →
      ∃ nb : Book,
        addBook db uid (some t) (some a) genre descr py isbn currentYear now
          = ({ db with books := db.books ++ [nb], nextBookId := db.nextBookId + 1 },
             .ok 201 nb) ∧
        nb.title = t ∧ nb.author = a ∧ nb.created_by = some uid ∧
        nb.id = db.nextBookId ∧ nb.created_at = now) := by
  constructor
  · intro hdup
    have hany : db.books.any
        (fun b => jsToLower b.title = jsToLower t ∧ jsToLower b.author = jsToLower a) = true := by
      rw [List.any_eq_true]
      obtain ⟨b, hb, h1, h2⟩ := hdup
      exact ⟨b, hb, by simp [h1, h2]⟩
    unfold addBook
    simp only [Option.getD_some]
    split_ifs with h1 h2 h3
    · exact absurd h1 (by simp [strTruthy, ht, ha])
    · exact absurd h2 (by omega)
    · cases py with
      | undef => exact absurd h3 (by simp [numTruthy])
      | null => exact absurd h3 (by simp [numTruthy])
      | val y =>
        have hy0 : y ≠ 0 := by
          intro h0
          rw [h0] at h3
          simp [numTruthy] at h3
        rcases hy y rfl hy0 with ⟨hl, hu⟩
        refine absurd h3 ?_
        simp only [numTruthy, Bool.and_eq_true, Bool.or_eq_true, decide_eq_true_eq]
        rintro ⟨-, h | h⟩ <;> omega
    · rfl
  · intro hdup
    have hany : db.books.any
        (fun b => jsToLower b.title = jsToLower t ∧ jsToLower b.author = jsToLower a) = false := by
      rw [Bool.eq_false_iff]
      intro hcontra
      rw [List.any_eq_true] at hcontra
      obtain ⟨b, hb, hpred⟩ := hcontra
      simp at hpred
      exact hdup ⟨b, hb, hpred⟩
    refine ⟨⟨db.nextBookId, t, a, genre, descr, storedYearOf py, isbn, some uid,
      now, now⟩, ?_, rfl, rfl, rfl, rfl, rfl⟩
    unfold addBook
    simp only [Option.getD_some]
    split_ifs with h1 h2 h3 h4
    · exact absurd h1 (by simp [strTruthy, ht, ha])
    · exact absurd h2 (by omega)
    · cases py with
      | undef => exact absurd h3 (by simp [numTruthy])
      | null => exact absurd h3 (by simp [numTruthy])
      | val y =>
        have hy0 : y ≠ 0 := by
          intro h0
          rw [h0] at h3
          simp [numTruthy] at h3
        rcases hy y rfl hy0 with ⟨hl, hu⟩
        refine absurd h3 ?_
        simp only [numTruthy, Bool.and_eq_true, Bool.or_eq_true, decide_eq_true_eq]
        rintro ⟨-, h | h⟩ <;> omega
    · rw [hany] at h4; exact Bool.noConfusion h4
    · rfl

/-- Witness for C6: adding "dune"/"HERBERT" after "Dune"/"Herbert"
conflicts. -/
theorem claim_addBook_conflict_iff_witness :
    addBook dbB 1 (some "dune") (some "HERBERT") none none .undef none 2026 8
      = (dbB, .err 409 "A book with this title and author already exists") := by
  exact (claim_addBook_conflict_iff dbB 1 "dune" "HERBERT" none none .undef none 2026 8
    (by decide) (by decide) (by decide) (by decide) (by simp)).1
    ⟨duneBook, by decide, by decide, by decide⟩

/-! ## Claim C4 (signup conflict detection) -/

/-- Claim C4 counterexample: the user "Bob" is registered, yet a signup
with the same username "Bob" does not answer 409: the pre-check compares
the stored username "Bob" against the lower-cased input "bob", misses,
and the insert then dies on the `UNIQUE(username)` constraint, surfacing
as a 500. -/
theorem claim_signup_conflict_counterexample :
    (∃ u ∈ dbMixedCase.users, u.username = "Bob") ∧
    (signup fixedHash dbMixedCase (some "Bob") (some "new@x.com") (some "secret1") 1).2
      = .err 500 "Internal server error during registration" := by
  constructor
  · exact ⟨⟨1, "Bob", "bob@x.com", "h0", 0⟩, by decide, rfl⟩
  · decide

/-- Claim C4 (amended): for field-valid input, signup answers 409
exactly when some stored user's email equals the case-folded email or
some stored user's username equals verbatim the case-folded username; an
exact duplicate that escapes this pre-check (possible when the stored
username contains an uppercase letter) hits the database unique
constraints and surfaces as a 500; otherwise the user is persisted (with
hashed password and lower-cased email) and returned with a fresh token
and status 201. -/
theorem claim_signup_conflict_amended (hash : String → String) (db : DB)
    (un em pw : String) (now : Nat)
    (hun : un ≠ "") (hem : em ≠ "") (hpw : pw ≠ "")
    (hvem : validateEmail em = true) (hvpw : validatePassword pw = true)
    (hlen : 3 ≤ un.length ∧ un.length ≤ 50) :
    ((∃ u ∈ db.users, u.email = jsToLower em ∨ u.username = jsToLower un) →
      signup hash db (some un) (some em) (some pw) now
        = (db, .err 409 "User with this email or username already exists")) ∧
    (¬(∃ u ∈ db.users, u.email = jsToLower em ∨ u.username = jsToLower un) →
      (∃ u ∈ db.users, u.username = un ∨ u.email = jsToLower em) →
      signup hash db (some un) (some em) (some pw) now
        = (db, .err 500 "Internal server error during registration")) ∧
    (¬(∃ u ∈ db.users, u.email = jsToLower em ∨ u.username = jsToLower un) →
      ¬(∃ u ∈ db.users, u.username = un ∨ u.email = jsToLower em) →
      signup hash db (some un) (some em) (some pw) now
        = ({ db with
             users := db.users ++ [⟨db.nextUserId, un, jsToLower em, hash pw, now⟩],
             nextUserId := db.nextUserId + 1 },
           .ok 201 ⟨db.nextUserId, un, jsToLower em, now,
                    generateToken db.nextUserId now⟩)) := by
  have hlen' : ¬(un.length < 3 ∨ 50 < un.length) := by omega
  refine ⟨?_, ?_, ?_⟩
  · intro hpre
    have hfind : (db.users.find? (fun u =>
        u.email = jsToLower em ∨ u.username = jsToLower un)).isSome = true := by
      rw [List.find?_isSome]
      obtain ⟨u, hu, hor⟩ := hpre
      exact ⟨u, hu, by simpa using hor⟩
    unfold signup
    simp only [Option.getD_some]
    split_ifs with h1 h2 h3 h4
    · exact absurd h1 (by simp [strTruthy, hun, hem, hpw])
    · exact absurd h2 (by simp [hvem])
    · exact absurd h3 (by simp [hvpw])
    · rfl
  · intro hpre huniq
    have hfind : (db.users.find? (fun u =>
        u.email = jsToLower em ∨ u.username = jsToLower un)).isSome = false := by
      rw [Bool.eq_false_iff]
      intro hcontra
      rw [List.find?_isSome] at hcontra
      obtain ⟨u, hu, hor⟩ := hcontra
      simp at hor
      exact hpre ⟨u, hu, hor⟩
    have hany : db.users.any (fun u => u.username = un ∨ u.email = jsToLower em) = true := by
      rw [List.any_eq_true]
      obtain ⟨u, hu, hor⟩ := huniq
      exact ⟨u, hu, by simpa using hor⟩
    unfold signup
    simp only [Option.getD_some]
    split_ifs with h1 h2 h3 h4 h5
    · exact absurd h1 (by simp [strTruthy, hun, hem, hpw])
    · exact absurd h2 (by simp [hvem])
    · exact absurd h3 (by simp [hvpw])
    · rw [hfind] at h4; exact Bool.noConfusion h4
    · rfl
  · intro hpre huniq
    have hfind : (db.users.find? (fun u =>
        u.email = jsToLower em ∨ u.username = jsToLower un)).isSome = false := by
      rw [Bool.eq_false_iff]
      intro hcontra
      rw [List.find?_isSome] at hcontra
      obtain ⟨u, hu, hor⟩ := hcontra
      simp at hor
      exact hpre ⟨u, hu, hor⟩
    have hany : db.users.any (fun u => u.username = un ∨ u.email = jsToLower em) = false := by
      rw [Bool.eq_false_iff]
      intro hcontra
      rw [List.any_eq_true] at hcontra
      obtain ⟨u, hu, hor⟩ := hcontra
      simp at hor
      exact huniq ⟨u, hu, hor⟩
    unfold signup
    simp only [Option.getD_some]
    split_ifs with h1 h2 h3 h4 h5
    · exact absurd h1 (by simp [strTruthy, hun, hem, hpw])
    · exact absurd h2 (by simp [hvem])
    · exact absurd h3 (by simp [hvpw])
    · rw [hfind] at h4; exact Bool.noConfusion h4
    · rw [hany] at h5; exact Bool.noConfusion h5
    · rfl

/-- Witness for the amended C4 theorem: a signup into the empty database
succeeds with a 201 and a fresh token. -/
theorem claim_signup_conflict_amended_witness :
    (signup fixedHash initDB (some "alice") (some "alice@x.com") (some "secret1") 5).2
      = .ok 201 ⟨1, "alice", "alice@x.com", 5, generateToken 1 5⟩ := by
  rw [(claim_signup_conflict_amended fixedHash initDB "alice" "alice@x.com" "secret1" 5
    (by decide) (by decide) (by decide) (by decide) (by decide) (by decide)).2.2
    (by simp [initDB]) (by simp [initDB])]
  decide

/-! ## Claim C9 (getBook id validation / not-found / review page) -/

/-- Claim C9 counterexample: "-5" is not a well-formed positive integer,
yet `getBook` does not answer 400 for it: `parseInt("-5")` is `-5` (not
`NaN`), no book has id `-5`, so the response is a 404. -/
theorem claim_getBook_counterexample :
    wellFormedPosInt "-5" = false ∧
    getBook dbC "-5" none none = .err 404 "Book not found" := by
  constructor
  · decide
  · decide

/-- Claim C9 (amended): `getBook` answers Validation (400) exactly when
`parseInt` of the id parameter is `NaN` (so ids with a parsable integer
prefix, such as "-5" or "3abc", are not rejected but looked up under the
parsed integer); it answers 404 when no book carries the parsed id; and
when the book exists (and the normalized page size is nonnegative) it
returns the book together with one independently-paginated page of its
reviews, newest first, each annotated with the reviewing user's
username. -/
theorem claim_getBook_behavior (db : DB) (rawId : String) (page limit : Option String) :
    (jsParseInt rawId = none → getBook db rawId page limit = .err 400 "Invalid book ID") ∧
    (∀ n : Int, jsParseInt rawId = some n →
      db.books.find? (fun b => (b.id : Int) = n) = none →
      getBook db rawId page limit = .err 404 "Book not found") ∧
    (∀ n b, jsParseInt rawId = some n →
      db.books.find? (fun x => (x.id : Int) = n) = some b →
      0 ≤ (getPagination page limit).limit →
      getBook db rawId page limit
        = .ok 200 ⟨b, bookReviewsPage db n (getPagination page limit)⟩ ∧
      (bookReviewsPage db n (getPagination page limit)).Pairwise
        (fun x y => y.review.created_at ≤ x.review.created_at) ∧
      (∀ e ∈ bookReviewsPage db n (getPagination page limit),
        (e.review.book_id : Int) = n ∧
        ∃ u ∈ db.users, u.id = e.review.user_id ∧ e.username = u.username)) := by
  refine ⟨?_, ?_, ?_⟩
  · intro h
    simp [getBook, h]
  · intro n hn hf
    simp [getBook, hn, hf]
  · intro n b hn hf hl
    have hnot : ¬((getPagination page limit).limit < 0) := by omega
    refine ⟨by simp [getBook, hn, hf, hnot], ?_, ?_⟩
    · have hsorted := @List.sorted_mergeSort _ reviewRecencyLe
        (fun a b c hab hbc => by
          simp only [reviewRecencyLe, decide_eq_true_eq] at *
          omega)
        (fun a b => by
          simp only [reviewRecencyLe, Bool.or_eq_true, decide_eq_true_eq]
          omega)
        ((db.reviews.filter (fun r => (r.book_id : Int) = n)).filterMap
          (fun r => (db.users.find? (fun u => u.id = r.user_id)).map
            (fun u => ReviewWithUser.mk r u.username)))
      have hsub : List.Sublist (bookReviewsPage db n (getPagination page limit))
          (((db.reviews.filter (fun r => (r.book_id : Int) = n)).filterMap
            (fun r => (db.users.find? (fun u => u.id = r.user_id)).map
              (fun u => ReviewWithUser.mk r u.username))).mergeSort reviewRecencyLe) := by
        unfold bookReviewsPage
        exact (List.take_sublist _ _).trans (List.drop_sublist _ _)
      refine (hsorted.sublist hsub).imp ?_
      intro a b hab
      simpa [reviewRecencyLe] using hab
    · intro e he
      have hmem : e ∈ ((db.reviews.filter (fun r => (r.book_id : Int) = n)).filterMap
          (fun r => (db.users.find? (fun u => u.id = r.user_id)).map
            (fun u => ReviewWithUser.mk r u.username))).mergeSort reviewRecencyLe := by
        refine List.Sublist.subset ?_ he
        unfold bookReviewsPage
        exact (List.take_sublist _ _).trans (List.drop_sublist _ _)
      rw [List.mem_mergeSort] at hmem
      rw [List.mem_filterMap] at hmem
      obtain ⟨r, hr, hfa⟩ := hmem
      rw [Option.map_eq_some'] at hfa
      obtain ⟨u, hu, heq⟩ := hfa
      have hrb : (r.book_id : Int) = n := by
        have := List.mem_filter.mp hr
        simpa using this.2
      subst heq
      exact ⟨hrb, u, List.mem_of_find?_eq_some hu, by simpa using List.find?_some hu, rfl⟩

/-- Witness for the amended C9 theorem: fetching book 1 in the seeded
state succeeds with its review page. -/
theorem claim_getBook_behavior_witness :
    getBook dbC "1" none none
      = .ok 200 ⟨duneBook, bookReviewsPage dbC 1 (getPagination none none)⟩ := by
  exact ((claim_getBook_behavior dbC "1" none none).2.2 1 duneBook (by decide)
    (by decide) (by decide)).1

/-! ## Claim C8 (search relevance scores and ordering) -/

/-- The search query's `CASE` expression agrees with the flat scoring
rule of the specification: 4 on a case-insensitive exact match of title
or author, else 3 on a substring match of title or author, else 1. -/
theorem relevanceCase_eq_spec (term : String) (b : Book) :
    relevanceCase term b =
      (if jsToLower b.title = jsToLower term ∨ jsToLower b.author = jsToLower term then 4
       else if likeContains b.title term ∨ likeContains b.author term then 3
       else 1) := by
  unfold relevanceCase
  split_ifs <;> first | rfl | tauto

/-- Claim C8: every row of a search result set carries the relevance
score given by the specification's rule (exact match 4, substring 3,
full-text-only 1), and the result set is ordered by descending score
with newest creation instant first among equal scores. -/
theorem claim_search_ranking (ft : String → String → Bool) (db : DB) (term : String)
    (limitN offsetN : Int) :
    (∀ row ∈ searchResultRows ft db term limitN offsetN,
      row.relevance_score =
        (if jsToLower row.book.title = jsToLower term ∨
            jsToLower row.book.author = jsToLower term then 4
         else if likeContains row.book.title term ∨
            likeContains row.book.author term then 3
         else 1)) ∧
    (searchResultRows ft db term limitN offsetN).Pairwise
      (fun x y => y.relevance_score < x.relevance_score ∨
        (x.relevance_score = y.relevance_score ∧
         y.book.created_at ≤ x.book.created_at)) := by
  constructor
  · intro row hrow
    have hmem : row ∈ ((db.books.filter (matchesSearch ft term)).map
        (fun b => ScoredBook.mk b (relevanceCase term b))).mergeSort searchOrderLe := by
      refine List.Sublist.subset ?_ hrow
      unfold searchResultRows
      exact (List.take_sublist _ _).trans (List.drop_sublist _ _)
    rw [List.mem_mergeSort, List.mem_map] at hmem
    obtain ⟨b, -, hb⟩ := hmem
    subst hb
    exact relevanceCase_eq_spec term b
  · have hsorted := @List.sorted_mergeSort _ searchOrderLe
      (fun a b c hab hbc => by
        simp only [searchOrderLe, decide_eq_true_eq] at *
        omega)
      (fun a b => by
        simp only [searchOrderLe, Bool.or_eq_true, decide_eq_true_eq]
        omega)
      ((db.books.filter (matchesSearch ft term)).map
        (fun b => ScoredBook.mk b (relevanceCase term b)))
    have hsub : List.Sublist (searchResultRows ft db term limitN offsetN)
        (((db.books.filter (matchesSearch ft term)).map
          (fun b => ScoredBook.mk b (relevanceCase term b))).mergeSort searchOrderLe) := by
      unfold searchResultRows
      exact (List.take_sublist _ _).trans (List.drop_sublist _ _)
    refine (hsorted.sublist hsub).imp ?_
    intro a b hab
    simpa [searchOrderLe] using hab

/-! ## Claim C1 (ownership guard protects other users' reviews) -/

/-- Distinct stored review ids identify rows uniquely. -/
theorem review_id_injective {l : List Review}
    (hnd : (l.map (fun x => x.id)).Nodup) {x y : Review}
    (hx : x ∈ l) (hy : y ∈ l) (hxy : x.id = y.id) : x = y :=
  List.inj_on_of_nodup_map hnd hx hy hxy

/-- A nonempty list all of whose members equal `a` has head `a`. -/
theorem head?_eq_of_forall_eq {α : Type} {l : List α} {a : α} (hne : l ≠ [])
    (hall : ∀ y ∈ l, y = a) : l.head? = some a := by
  cases l with
  | nil => exact absurd rfl hne
  | cons h t => simpa using hall h (List.mem_cons_self h t)

/-- Claim C1: for an integer id, `checkReviewOwnership` answers 404 when
no review carries the id, 403 when the first review carrying it belongs
to a different user, and passes control on otherwise; consequently the
full update and delete pipelines leave every review belonging to a
different user untouched (stored review ids are unique, being the
table's primary key). -/
theorem claim_ownership_guard (db : DB) (raw : String) (uid : Nat)
    (body : UpdateBody) (now : Nat)
    (hnd : (db.reviews.map (fun x => x.id)).Nodup) :
    (∀ rid : Int, pgCastInt raw = some rid →
      ((db.reviews.find? (fun x => (x.id : Int) = rid) = none →
          checkReviewOwnership db.reviews raw uid = .respond 404 "Review not found") ∧
       (∀ r, db.reviews.find? (fun x => (x.id : Int) = rid) = some r → r.user_id ≠ uid →
          checkReviewOwnership db.reviews raw uid
            = .respond 403 "You can only modify your own reviews") ∧
       (∀ r, db.reviews.find? (fun x => (x.id : Int) = rid) = some r → r.user_id = uid →
          checkReviewOwnership db.reviews raw uid = .next))) ∧
    (∀ r ∈ db.reviews, r.user_id ≠ uid →
      r ∈ (updateReviewPipeline db raw uid body now).1.reviews ∧
      r ∈ (deleteReviewPipeline db raw uid).1.reviews) := by
  constructor
  · intro rid hcast
    refine ⟨?_, ?_, ?_⟩
    · intro hf
      simp [checkReviewOwnership, hcast, hf]
    · intro r hf hne
      simp [checkReviewOwnership, hcast, hf, hne]
    · intro r hf heq
      simp [checkReviewOwnership, hcast, hf, heq]
  · intro r hr hne
    constructor
    · unfold updateReviewPipeline
      cases hc : checkReviewOwnership db.reviews raw uid with
      | respond s m => exact hr
      | next =>
        obtain ⟨rid, r0, hcast, hfind, huser⟩ := checkReviewOwnership_next_elim hc
        have hr0mem := List.mem_of_find?_eq_some hfind
        have hr0id : (r0.id : Int) = rid := by simpa using List.find?_some hfind
        have hneq : ¬((r.id : Int) = rid) := by
          intro heq
          have : r = r0 := review_id_injective hnd hr hr0mem (by omega)
          rw [this, huser] at hne
          exact hne rfl
        have hmem2 : r ∈ db.reviews.map
            (fun x => if (x.id : Int) = rid
              then (attemptUpdateRow x body now).getD x else x) := by
          refine List.mem_map.mpr ⟨r, hr, ?_⟩
          rw [if_neg hneq]
        unfold updateReviewHandler
        rw [jsParseInt_of_pgCastInt hcast]
        dsimp only
        split_ifs
        all_goals try exact hr
        all_goals cases db.users.find? (fun u => u.id = uid) <;> simpa using hmem2
    · unfold deleteReviewPipeline
      cases hc : checkReviewOwnership db.reviews raw uid with
      | respond s m => exact hr
      | next =>
        obtain ⟨rid, r0, hcast, hfind, huser⟩ := checkReviewOwnership_next_elim hc
        have hr0mem := List.mem_of_find?_eq_some hfind
        have hr0id : (r0.id : Int) = rid := by simpa using List.find?_some hfind
        have hneq : ¬((r.id : Int) = rid) := by
          intro heq
          have : r = r0 := review_id_injective hnd hr hr0mem (by omega)
          rw [this, huser] at hne
          exact hne rfl
        unfold deleteReviewHandler
        rw [jsParseInt_of_pgCastInt hcast]
        simp only [List.mem_filter]
        exact ⟨hr, by simpa using hneq⟩

/-- Witness for C1: a second user neither passes the ownership check on
alice's review (403) nor removes it through the delete pipeline. -/
theorem claim_ownership_guard_witness :
    checkReviewOwnership dbC.reviews "1" 2
      = .respond 403 "You can only modify your own reviews" ∧
    duneReview ∈ (deleteReviewPipeline dbC "1" 2).1.reviews := by
  have h := claim_ownership_guard dbC "1" 2 ⟨.undef, .undef⟩ 0 (by decide)
  exact ⟨(h.1 1 (by decide)).2.1 duneReview (by decide) (by decide),
         (h.2 duneReview (by decide) (by decide)).2⟩

/-- Witness for C8: in a database holding only "Dune" by "Herbert", the
query "dune" scores the book 4 (exact title match) and the result set is
sorted. -/
theorem claim_search_ranking_witness :
    ((⟨duneBook, 4⟩ : ScoredBook).relevance_score =
      (if jsToLower duneBook.title = jsToLower "dune" ∨
          jsToLower duneBook.author = jsToLower "dune" then 4
       else if likeContains duneBook.title "dune" ∨
          likeContains duneBook.author "dune" then 3
       else 1)) ∧
    (searchResultRows ftNone dbSearch "dune" 10 0).Pairwise
      (fun x y => y.relevance_score < x.relevance_score ∨
        (x.relevance_score = y.relevance_score ∧
         y.book.created_at ≤ x.book.created_at)) := by
  have h := claim_search_ranking ftNone dbSearch "dune" 10 0
  refine ⟨h.1 ⟨duneBook, 4⟩ ?_, h.2⟩
  have h1 : (dbSearch.books.filter (matchesSearch ftNone "dune")).map
      (fun b => ScoredBook.mk b (relevanceCase "dune" b)) = [⟨duneBook, 4⟩] := by decide
  unfold searchResultRows
  rw [h1]
  simp [List.mergeSort]

/-! ## Claim C7 (partial update semantics of PUT /reviews/:id) -/

/-- Claim C7 counterexample: a request supplying `rating: 0` passes the
ownership check and the handler's falsy-guarded range validation, then
dies on the database `CHECK (rating >= 1 AND rating <= 5)`: the response
is a 500 and the stored review is unchanged (its rating stays 5 and
`updated_at` is not refreshed), where the claim promises that the
supplied field changes and `updated_at` is always refreshed. -/
theorem claim_updateReview_counterexample :
    updateReviewPipeline dbC "1" 1 ⟨.val 0, .undef⟩ 11
      = (dbC, .err 500 "Internal server error while updating review") ∧
    (updateReviewPipeline dbC "1" 1 ⟨.val 0, .undef⟩ 11).1.reviews = [duneReview] := by
  constructor
  · decide
  · decide

/-- Claim C7 (amended): for every update request that passes the
ownership check, where a supplied rating is an integer in 1..5 and a
supplied text is at most 2000 characters (a supplied rating of 0 or null
instead slips past validation and fails at the database with a 500,
leaving the review unchanged; a supplied nonzero out-of-range rating
fails validation with a 400): if neither field is supplied the request
fails 400 with the store unchanged; otherwise exactly the target review
is replaced — only the supplied fields change, its id, book, user and
creation instant are kept — and `updated_at` is refreshed to the
request instant. -/
theorem claim_updateReview_frame (db : DB) (raw : String) (uid : Nat)
    (body : UpdateBody) (now : Nat) (rid : Int) (r : Review) (u : User)
    (hnd : (db.reviews.map (fun x => x.id)).Nodup)
    (hcast : pgCastInt raw = some rid)
    (hfind : db.reviews.find? (fun x => (x.id : Int) = rid) = some r)
    (hmine : r.user_id = uid)
    (hu : db.users.find? (fun x => x.id = uid) = some u)
    (hrr : 1 ≤ r.rating ∧ r.rating ≤ 5)
    (hrv : body.rating = .undef ∨ ∃ m, body.rating = .val m ∧ 1 ≤ m ∧ m ≤ 5)
    (htv : body.review_text = .undef ∨ body.review_text = .null ∨
      ∃ s, body.review_text = .val s ∧ s.length ≤ 2000) :
    (body.rating = .undef ∧ body.review_text = .undef →
      updateReviewPipeline db raw uid body now
        = (db, .err 400 "At least one field (rating or review_text) must be provided")) ∧
    (¬(body.rating = .undef ∧ body.review_text = .undef) →
      updateReviewPipeline db raw uid body now
        = ({ db with
             reviews := db.reviews.map
               (fun x => if x.id = r.id then appliedUpdate r body now else x) },
           .ok 200 ⟨some (appliedUpdate r body now), u.username⟩) ∧
      (appliedUpdate r body now).id = r.id ∧
      (appliedUpdate r body now).book_id = r.book_id ∧
      (appliedUpdate r body now).user_id = r.user_id ∧
      (appliedUpdate r body now).created_at = r.created_at ∧
      (appliedUpdate r body now).updated_at = now ∧
      (body.rating = .undef → (appliedUpdate r body now).rating = r.rating) ∧
      (∀ m, body.rating = .val m → (appliedUpdate r body now).rating = m) ∧
      (body.review_text = .undef →
        (appliedUpdate r body now).review_text = r.review_text) ∧
      (body.review_text = .null → (appliedUpdate r body now).review_text = none) ∧
      (∀ s, body.review_text = .val s →
        (appliedUpdate r body now).review_text = some s)) := by
  have hridr : (r.id : Int) = rid := by simpa using List.find?_some hfind
  have hrmem := List.mem_of_find?_eq_some hfind
  have hown : checkReviewOwnership db.reviews raw uid = .next := by
    unfold checkReviewOwnership
    rw [hcast]
    dsimp only
    rw [hfind]
    dsimp only
    simp [hmine]
  have hjs := jsParseInt_of_pgCastInt hcast
  have hg1 : ratingRangeGuard body.rating = false := by
    rcases hrv with h | ⟨m, hm, h1, h2⟩
    · simp [ratingRangeGuard, h, numTruthy]
    · simp [ratingRangeGuard, hm, numTruthy]
      omega
  have hg2 : textLengthGuard body.review_text = false := by
    rcases htv with h | h | ⟨s, hs, hlen⟩
    · simp [textLengthGuard, h, textTruthy]
    · simp [textLengthGuard, h, textTruthy]
    · simp [textLengthGuard, hs, textTruthy]
      omega
  have hatt : attemptUpdateRow r body now = some (appliedUpdate r body now) := by
    rcases hrv with h | ⟨m, hm, h1, h2⟩
    · have hcond : ¬(r.rating < 1 ∨ 5 < r.rating) := by omega
      simp [attemptUpdateRow, appliedUpdate, h, hcond]
    · have hcond : ¬(m < 1 ∨ 5 < m) := by omega
      simp [attemptUpdateRow, appliedUpdate, hm, hcond]
  have hall : ((db.reviews.filter (fun x => (x.id : Int) = rid)).all
      (fun x => (attemptUpdateRow x body now).isSome)) = true := by
    rw [List.all_eq_true]
    intro x hx
    have hxmem := (List.mem_filter.mp hx).1
    have hxid : (x.id : Int) = rid := by simpa using (List.mem_filter.mp hx).2
    have hxr : x = r := review_id_injective hnd hxmem hrmem (by omega)
    rw [hxr, hatt]
    rfl
  have hmapeq : db.reviews.map
      (fun x => if (x.id : Int) = rid then (attemptUpdateRow x body now).getD x else x)
      = db.reviews.map (fun x => if x.id = r.id then appliedUpdate r body now else x) := by
    apply List.map_congr_left
    intro x hx
    by_cases hxid : (x.id : Int) = rid
    · have hxr : x = r := review_id_injective hnd hx hrmem (by omega)
      rw [hxr, if_pos hridr, hatt, if_pos rfl]
      rfl
    · rw [if_neg hxid, if_neg (fun hc => hxid (by rw [hc]; exact hridr))]
  have hhead : ((db.reviews.map
      (fun x => if x.id = r.id then appliedUpdate r body now else x)).filter
      (fun x => (x.id : Int) = rid)).head? = some (appliedUpdate r body now) := by
    apply head?_eq_of_forall_eq
    · intro hcontra
      have happmem : appliedUpdate r body now ∈ (db.reviews.map
          (fun x => if x.id = r.id then appliedUpdate r body now else x)).filter
          (fun x => (x.id : Int) = rid) := by
        rw [List.mem_filter]
        refine ⟨List.mem_map.mpr ⟨r, hrmem, by rw [if_pos rfl]⟩, ?_⟩
        have : (appliedUpdate r body now).id = r.id := rfl
        simp [this, hridr]
      rw [hcontra] at happmem
      exact absurd happmem (List.not_mem_nil _)
    · intro y hy
      rw [List.mem_filter] at hy
      obtain ⟨hymem, hyid⟩ := hy
      rw [List.mem_map] at hymem
      obtain ⟨x, hx, hgx⟩ := hymem
      by_cases hxeq : x.id = r.id
      · rw [if_pos hxeq] at hgx
        exact hgx.symm
      · rw [if_neg hxeq] at hgx
        rw [← hgx] at hyid
        have : (x.id : Int) = rid := by simpa using hyid
        exact absurd (show x.id = r.id by omega) hxeq
  constructor
  · rintro ⟨hru, htu⟩
    unfold updateReviewPipeline
    rw [hown]
    unfold updateReviewHandler
    rw [hjs]
    dsimp only
    simp [hru, htu, ratingRangeGuard, textLengthGuard, numTruthy, textTruthy]
  · intro hne
    refine ⟨?_, rfl, rfl, rfl, rfl, rfl, ?_, ?_, ?_, ?_, ?_⟩
    · unfold updateReviewPipeline
      rw [hown]
      unfold updateReviewHandler
      rw [hjs]
      dsimp only
      rw [if_neg (by simp [hg1]), if_neg (by simp [hg2]), if_neg hne,
        if_neg (by simp [hall]), hu]
      rw [hmapeq, hhead]
    · intro h; simp [appliedUpdate, h]
    · intro m h; simp [appliedUpdate, h]
    · intro h; simp [appliedUpdate, h]
    · intro h; simp [appliedUpdate, h]
    · intro s h; simp [appliedUpdate, h]

/-- Witness for the amended C7 theorem: alice updates only the rating of
her review; the text and creation instant are kept and `updated_at`
becomes the request instant. -/
theorem claim_updateReview_frame_witness :
    updateReviewPipeline dbC "1" 1 ⟨.val 3, .undef⟩ 11
      = ({ dbC with
           reviews := dbC.reviews.map
             (fun x => if x.id = duneReview.id
               then appliedUpdate duneReview ⟨.val 3, .undef⟩ 11 else x) },
         .ok 200 ⟨some (appliedUpdate duneReview ⟨.val 3, .undef⟩ 11), "alice"⟩) := by
  exact ((claim_updateReview_frame dbC "1" 1 ⟨.val 3, .undef⟩ 11 1 duneReview
    ⟨1, "alice", "alice@x.com", fixedHash "secret1", 5⟩ (by decide) (by decide)
    (by decide) (by decide) (by decide) (by decide)
    (Or.inr ⟨3, rfl, by omega, by omega⟩) (Or.inl rfl)).2 (by simp)).1

/-! ## Claim C5 (at most one review per (book, user) pair) -/

/-- Signup never touches the reviews table. -/
theorem signup_reviews_eq (hash : String → String) (db : DB)
    (un em pw : Option String) (now : Nat) :
    (signup hash db un em pw now).1.reviews = db.reviews := by
  unfold signup
  dsimp only
  split_ifs <;> rfl

/-- Adding a book never touches the reviews table. -/
theorem addBook_reviews_eq (db : DB) (uid : Nat)
    (title author genre descr : Option String) (py : JsOpt Int)
    (isbn : Option String) (cy : Int) (now : Nat) :
    (addBook db uid title author genre descr py isbn cy now).1.reviews
      = db.reviews := by
  unfold addBook
  dsimp only
  split_ifs <;> rfl

/-- A successful per-row update keeps the row's identity fields and
refreshes only `updated_at` (besides the supplied content fields). -/
theorem attemptUpdateRow_fields {x y : Review} {body : UpdateBody} {now : Nat}
    (h : attemptUpdateRow x body now = some y) :
    y.id = x.id ∧ y.book_id = x.book_id ∧ y.user_id = x.user_id ∧
    y.created_at = x.created_at ∧ y.updated_at = now := by
  obtain ⟨br, bt⟩ := body
  unfold attemptUpdateRow at h
  cases br with
  | undef =>
    dsimp only at h
    split_ifs at h
    injection h with h2
    subst h2
    exact ⟨rfl, rfl, rfl, rfl, rfl⟩
  | null =>
    dsimp only at h
    exact absurd h (by simp)
  | val n =>
    dsimp only at h
    split_ifs at h
    injection h with h2
    subst h2
    exact ⟨rfl, rfl, rfl, rfl, rfl⟩

/-- The row transformation of the `UPDATE` statement preserves the
(book, user) pair of every row. -/
theorem updMap_pair (body : UpdateBody) (now : Nat) (rid : Int) (x : Review) :
    ((if (x.id : Int) = rid then (attemptUpdateRow x body now).getD x else x).book_id
      = x.book_id) ∧
    ((if (x.id : Int) = rid then (attemptUpdateRow x body now).getD x else x).user_id
      = x.user_id) := by
  split_ifs with hx
  · cases hatt : attemptUpdateRow x body now with
    | none => simp
    | some y =>
      obtain ⟨-, hb, hu2, -, -⟩ := attemptUpdateRow_fields hatt
      simp [hb, hu2]
  · exact ⟨rfl, rfl⟩

/-- The review-creation handler preserves the pair-uniqueness invariant:
its pre-check refuses a second review for the same (book, user) pair. -/
theorem addReview_pair_unique (db : DB) (rawBookId : String) (uid : Nat)
    (rating : JsOpt Int) (text : JsOpt String) (now : Nat)
    (h : PairUnique db.reviews) :
    PairUnique (addReview db rawBookId uid rating text now).1.reviews := by
  unfold addReview
  split
  · exact h
  · rename_i bid hbid
    by_cases h1 : ratingRequiredGuard rating = true
    · rw [if_pos h1]; exact h
    · rw [if_neg h1]
      by_cases h2 : textLengthGuard text = true
      · rw [if_pos h2]; exact h
      · rw [if_neg h2]
        cases hb : db.books.find? (fun x => (x.id : Int) = bid) with
        | none => exact h
        | some b =>
          by_cases h3 : ((db.reviews.find?
              (fun r => (r.book_id : Int) = bid ∧ r.user_id = uid)).isSome) = true
          · rw [if_pos h3]; exact h
          · rw [if_neg h3]
            cases hu : db.users.find? (fun x => x.id = uid) with
            | none => exact h
            | some u =>
              dsimp only
              have hbidpos : (b.id : Int) = bid := by
                simpa using List.find?_some hb
              have hnone : db.reviews.find?
                  (fun r => (r.book_id : Int) = bid ∧ r.user_id = uid) = none := by
                cases hf : db.reviews.find?
                    (fun r => (r.book_id : Int) = bid ∧ r.user_id = uid) with
                | none => rfl
                | some r => exact absurd (by rw [hf]; rfl : ((db.reviews.find?
                    (fun r => (r.book_id : Int) = bid ∧ r.user_id = uid)).isSome) = true) h3
              rw [List.find?_eq_none] at hnone
              unfold PairUnique
              rw [List.pairwise_append]
              refine ⟨h, List.pairwise_singleton _ _, ?_⟩
              intro a ha c hc
              rw [List.mem_singleton] at hc
              subst hc
              dsimp only
              rintro ⟨hab, hau⟩
              refine hnone a ha ?_
              simp only [decide_eq_true_eq]
              constructor
              · rw [hab]; omega
              · exact hau

/-- The update pipeline preserves the pair-uniqueness invariant. -/
theorem updatePipeline_pair_unique (db : DB) (raw : String) (uid : Nat)
    (body : UpdateBody) (now : Nat) (h : PairUnique db.reviews) :
    PairUnique (updateReviewPipeline db raw uid body now).1.reviews := by
  unfold updateReviewPipeline
  cases hc : checkReviewOwnership db.reviews raw uid with
  | respond s m => exact h
  | next =>
    unfold updateReviewHandler
    dsimp only
    cases hjs : jsParseInt raw with
    | none => exact h
    | some rid =>
      dsimp only
      by_cases h1 : ratingRangeGuard body.rating = true
      · rw [if_pos h1]; exact h
      · rw [if_neg h1]
        by_cases h2 : textLengthGuard body.review_text = true
        · rw [if_pos h2]; exact h
        · rw [if_neg h2]
          by_cases h3 : body.rating = JsOpt.undef ∧ body.review_text = JsOpt.undef
          · rw [if_pos h3]; exact h
          · rw [if_neg h3]
            by_cases h4 : (!(db.reviews.filter (fun x => (x.id : Int) = rid)).all
                (fun x => (attemptUpdateRow x body now).isSome)) = true
            · rw [if_pos h4]; exact h
            · rw [if_neg h4]
              have hmap : PairUnique (db.reviews.map
                  (fun x => if (x.id : Int) = rid
                    then (attemptUpdateRow x body now).getD x else x)) := by
                refine h.map _ ?_
                intro a c hac hcontra
                obtain ⟨hba, hua⟩ := updMap_pair body now rid a
                obtain ⟨hbc, huc⟩ := updMap_pair body now rid c
                exact hac ⟨by rw [← hba, ← hbc]; exact hcontra.1,
                           by rw [← hua, ← huc]; exact hcontra.2⟩
              cases db.users.find? (fun x => x.id = uid) <;> exact hmap

/-- The delete pipeline preserves the pair-uniqueness invariant. -/
theorem deletePipeline_pair_unique (db : DB) (raw : String) (uid : Nat)
    (h : PairUnique db.reviews) :
    PairUnique (deleteReviewPipeline db raw uid).1.reviews := by
  unfold deleteReviewPipeline
  cases hc : checkReviewOwnership db.reviews raw uid with
  | respond s m => exact h
  | next =>
    unfold deleteReviewHandler
    dsimp only
    cases hjs : jsParseInt raw with
    | none => exact h
    | some rid =>
      dsimp only
      exact List.Pairwise.sublist (List.filter_sublist _) h

/-- Claim C5: every reachable state stores at most one review per
(book, user) pair, and a second review submission by a user who already
reviewed the book (with otherwise well-formed input) fails with 409 and
leaves the state unchanged. -/
theorem claim_review_pair_unique (db : DB) (hreach : Reachable db) :
    PairUnique db.reviews ∧
    (∀ rawBookId uid rating text now bid,
      jsParseInt rawBookId = some bid →
      (∃ m : Int, rating = JsOpt.val m ∧ 1 ≤ m ∧ m ≤ 5) →
      (∀ s, text = JsOpt.val s → s.length ≤ 2000) →
      (∃ b ∈ db.books, (b.id : Int) = bid) →
      (∃ r ∈ db.reviews, (r.book_id : Int) = bid ∧ r.user_id = uid) →
      addReview db rawBookId uid rating text now
        = (db, .err 409
            "You have already reviewed this book. Use PUT to update your review.")) := by
  constructor
  · induction hreach with
    | init => exact List.Pairwise.nil
    | step hprev hstep ih =>
      rename_i dbp dbq
      cases hstep with
      | signup hash un em pw now =>
        unfold PairUnique
        rw [signup_reviews_eq]
        exact ih
      | addBook uid title author genre descr py isbn cy now =>
        unfold PairUnique
        rw [addBook_reviews_eq]
        exact ih
      | addReview rawBookId uid rating text now =>
        exact addReview_pair_unique dbp rawBookId uid rating text now ih
      | updateReview raw uid body now =>
        exact updatePipeline_pair_unique dbp raw uid body now ih
      | deleteReview raw uid =>
        exact deletePipeline_pair_unique dbp raw uid ih
  · intro rawBookId uid rating text now bid hbid hrat htext hbook hex
    obtain ⟨m, hm, hm1, hm5⟩ := hrat
    have hg1 : ratingRequiredGuard rating = false := by
      subst hm
      simp [ratingRequiredGuard, numTruthy]
      omega
    have hg2 : textLengthGuard text = false := by
      cases text with
      | undef => rfl
      | null => rfl
      | val s =>
        have := htext s rfl
        simp [textLengthGuard, textTruthy]
        omega
    obtain ⟨b0, hb0⟩ : ∃ b0, db.books.find? (fun x => (x.id : Int) = bid) = some b0 := by
      rw [← Option.isSome_iff_exists, List.find?_isSome]
      obtain ⟨b, hb, hbe⟩ := hbook
      exact ⟨b, hb, by simp [hbe]⟩
    have hfindex : (db.reviews.find?
        (fun r => (r.book_id : Int) = bid ∧ r.user_id = uid)).isSome = true := by
      rw [List.find?_isSome]
      obtain ⟨r, hr, hre⟩ := hex
      exact ⟨r, hr, by simp [hre.1, hre.2]⟩
    unfold addReview
    rw [hbid]
    dsimp only
    rw [if_neg (by simp [hg1]), if_neg (by simp [hg2]), hb0]
    dsimp only
    rw [if_pos hfindex]

/-- Witness for C5: the seeded state is reachable through the API, its
reviews are pair-unique, and alice's second review of "Dune" conflicts
with her first. -/
theorem claim_review_pair_unique_witness :
    PairUnique dbC.reviews ∧
    addReview dbC "1" 1 (.val 4) .undef 10
      = (dbC, .err 409
          "You have already reviewed this book. Use PUT to update your review.") := by
  have hreach : Reachable dbC := by
    have h1 : Reachable dbA := Reachable.step Reachable.init
      (Step.signup initDB fixedHash (some "alice") (some "alice@x.com")
        (some "secret1") 5)
    have h2 : Reachable dbB := Reachable.step h1
      (Step.addBook dbA 1 (some "Dune") (some "Herbert") none none .undef none 2026 7)
    exact Reachable.step h2 (Step.addReview dbB "1" 1 (.val 5) (.val "great") 9)
  have h := claim_review_pair_unique dbC hreach
  refine ⟨h.1, h.2 "1" 1 (.val 4) .undef 10 1 (by decide)
    ⟨4, rfl, by omega, by omega⟩ ?_ ⟨duneBook, by decide, by decide⟩
    ⟨duneReview, by decide, by decide, by decide⟩⟩
  intro s hs
  exact absurd hs (by simp)

end BookReviewApi
